import Mathlib

/-!
Shallow embedding of the tiered cache subsystem of the
EnergyInvestmentTool repository (the caching layer documented and
implemented in the repository's data-caching module: key generation,
tier registry, get/set/invalidate, statistics, and the two caching
wrappers).  Machine time is modelled in whole seconds as `Nat`; cached
payloads are modelled as JSON values.
-/

namespace EnergyCache

/-- JSON-serializable values: the payloads the cache stores and the
component values from which cache keys are built.  Numbers are modelled
as integers (no claim depends on fractional numerics). -/
inductive JValue where
  | null : JValue
  | bool (b : Bool) : JValue
  | num (n : Int) : JValue
  | str (s : String) : JValue
  | arr (xs : List JValue) : JValue
  | obj (fields : List (String × JValue)) : JValue
deriving Repr

/-- Code-point comparison of character lists: exactly how Python
compares strings (and hence how `sorted` orders dict keys). -/
def charListLe : List Char → List Char → Bool
  | [], _ => true
  | _ :: _, [] => false
  | a :: as, b :: bs =>
    if a.toNat < b.toNat then true
    else if b.toNat < a.toNat then false
    else charListLe as bs

/-- String comparison used wherever the source sorts keys
(Python `sorted` on strings). -/
def strLe (a b : String) : Bool := charListLe a.data b.data

/-- Inserts into a le-sorted list, keeping it sorted (stable). -/
def orderedInsertBy {α : Type} (le : α → α → Bool) (a : α) : List α → List α
  | [] => [a]
  | b :: l => if le a b then a :: b :: l else b :: orderedInsertBy le a l

/-- Stable sort by a boolean comparison; models Python `sorted`. -/
def insertionSortBy {α : Type} (le : α → α → Bool) : List α → List α
  | [] => []
  | a :: l => orderedInsertBy le a (insertionSortBy le l)

/-- Character-list prefix test (structural model of Python
`str.startswith`). -/
def charListPref : List Char → List Char → Bool
  | [], _ => true
  | _ :: _, [] => false
  | a :: as, b :: bs => if a.toNat == b.toNat then charListPref as bs else false

/-- Models `key.startswith(pre)`. -/
def strStartsWith (s pre : String) : Bool := charListPref pre.data s.data

/-- Escape of a JSON string body, as `json.dumps` escapes quotes and
backslashes (control characters do not occur in the claims' inputs). -/
def escapeChars : List Char → String
  | [] => ""
  | c :: cs =>
    (if c = '"' then "\\\"" else if c = '\\' then "\\\\" else String.singleton c)
      ++ escapeChars cs

/-- Joins rendered object fields, each as `"key": value`, with ", ". -/
def joinPairs : List (String × String) → String
  | [] => ""
  | [(k, v)] => "\"" ++ escapeChars k.data ++ "\": " ++ v
  | (k, v) :: p :: ps =>
      "\"" ++ escapeChars k.data ++ "\": " ++ v ++ ", " ++ joinPairs (p :: ps)

mutual

/-- Serializer modelling `json.dumps(v, sort_keys=True)`: Python's
default ", " and ": " separators, double-quoted strings, and every
object's fields emitted in sorted key order. -/
def dumpsVal : JValue → String
  | JValue.null => "null"
  | JValue.bool b => if b then "true" else "false"
  | JValue.num n => toString n
  | JValue.str s => "\"" ++ escapeChars s.data ++ "\""
  | JValue.arr xs => "[" ++ dumpsArr xs ++ "]"
  | JValue.obj fs =>
      "\x7b" ++ joinPairs (insertionSortBy (fun a b => strLe a.1 b.1) (renderFields fs)) ++ "\x7d"

/-- Serializes array elements joined by ", ". -/
def dumpsArr : List JValue → String
  | [] => ""
  | [x] => dumpsVal x
  | x :: y :: xs => dumpsVal x ++ ", " ++ dumpsArr (y :: xs)

/-- Renders each object field's value, keeping the key. -/
def renderFields : List (String × JValue) → List (String × String)
  | [] => []
  | (k, v) :: fs => (k, dumpsVal v) :: renderFields fs

end

/-- Models `json.dumps(v, sort_keys=True)`: canonical JSON text with
object keys sorted at every level. -/
def dumps (v : JValue) : String := dumpsVal v

/-- Hexadecimal digit characters. -/
def hexDigit (n : Nat) : Char :=
  if n < 10 then Char.ofNat (48 + n) else Char.ofNat (87 + n)

/-- Fixed-width big-endian hexadecimal rendering: exactly `w` digits. -/
def hexOfNat : Nat → Nat → List Char
  | 0, _ => []
  | w + 1, v => hexOfNat w (v / 16) ++ [hexDigit (v % 16)]

/-- Models `hashlib.md5(key_string.encode("utf-8")).hexdigest()`: a
fixed deterministic 128-bit digest of the string, rendered as 32 hex
characters.  The development relies only on the digest being a fixed
total function of the input text (the source treats collisions as
negligible and never inverts the digest), so a polynomial fold over the
character stream stands in for the MD5 compression function. -/
def md5Hex (s : String) : String :=
  let h := s.data.foldl (fun acc c => (acc * 1099511628211 + c.toNat) % (2 ^ 128)) 14695981039346656037
  String.mk (hexOfNat 32 (h % (2 ^ 128)))

/-- Looks a key up in a component mapping; total via a `null` default
(callers only apply it to keys of the mapping). -/
def lookup1 (k : String) (l : List (String × JValue)) : JValue :=
  match l.lookup k with
  | some v => v
  | none => JValue.null

/-- Embeds `CacheManager._generate_cache_key`: sorts the component keys
(the dict comprehension over `sorted(key_components.keys())`), builds
`"namespace:json.dumps(sorted_components, sort_keys=True)"`, digests it,
and returns `"namespace:digest"`.  The source performs no validation of
the namespace argument (`ns` here; `namespace` is a Lean keyword). -/
def generate_cache_key (ns : String) (key_components : List (String × JValue)) : String :=
  let sorted_components : List (String × JValue) :=
    (insertionSortBy strLe (key_components.map Prod.fst)).map
      (fun k => (k, lookup1 k key_components))
  let key_string := ns ++ ":" ++ dumps (JValue.obj sorted_components)
  let key_hash := md5Hex key_string
  ns ++ ":" ++ key_hash

/-- Tier policy record: TTL in seconds plus human-readable text, as in
the source's `cache_tiers` dictionary values. -/
structure TierInfo where
  ttl : Nat
  text : String
deriving DecidableEq, Repr

/-- Embeds the source's `self.cache_tiers` registry literally. -/
def cache_tiers : List (String × TierInfo) :=
  [("short", ⟨3600, "Short-term cache for API responses during user sessions"⟩),
   ("medium", ⟨86400, "Medium-term cache for frequently accessed locations"⟩),
   ("long", ⟨2592000, "Long-term cache for slow-changing data like solar radiation"⟩)]

/-- Python-dict insertion into an association list: replaces the value
at an existing key in place, otherwise appends.  Models assignment into
`self.memory_cache[cache_key]` and the SQLite upsert. -/
def dictInsert {α : Type} : List (String × α) → String → α → List (String × α)
  | [], k, v => [(k, v)]
  | (k', v') :: rest, k, v =>
      if k' = k then (k, v) :: rest else (k', v') :: dictInsert rest k v

/-- Memory-cache entry, with the fields the source documents for
`memory_cache[cache_key]` (`value`, `expires_at`, `last_accessed_at`,
`access_count`). -/
structure CacheEntry where
  value : JValue
  expires_at : Nat
  last_accessed_at : Nat
  access_count : Nat
deriving Repr

/-- Disk-cache row, with the columns of the source's `cache` table
(`key` is the association-list key). -/
structure DiskRow where
  value : JValue
  tier : String
  expires_at : Nat
  created_at : Nat
  access_count : Nat
  last_accessed_at : Nat
deriving Repr

/-- Embeds `self.memory_cache_stats`. -/
structure MemoryCacheStats where
  hits : Nat
  misses : Nat
  evictions : Nat
  inserts : Nat
deriving Repr, DecidableEq

/-- Cache-manager state: the enable flags from the constructor, the two
stores, and the memory-side counters.  The LRU capacity bound of the
memory cache is orthogonal to every claim treated here (each claim
excludes eviction or uses stores far below capacity) and is omitted. -/
structure CacheManager where
  enable_memory_cache : Bool
  enable_disk_cache : Bool
  memory_cache : List (String × CacheEntry)
  disk_cache : List (String × DiskRow)
  memory_cache_stats : MemoryCacheStats
deriving Repr

/-- Cache manager as constructed with the source's defaults: both
caches enabled, empty stores, zeroed counters. -/
def initManager : CacheManager :=
  ⟨true, true, [], [], ⟨0, 0, 0, 0⟩⟩

/-- Disk-side half of `CacheManager.get`.  Modelled from the spec: the
source elides the lookup body (\"Disk cache lookup implementation\"), and
the spec requires a point lookup that treats expired rows as absent
without deleting them, updates access metadata on a hit, and promotes
the hit value into the memory cache. -/
def diskLookup (mgr : CacheManager) (cache_key : String) (now : Nat) :
    Option JValue × CacheManager :=
  if mgr.enable_disk_cache then
    match mgr.disk_cache.lookup cache_key with
    | some row =>
      if now < row.expires_at then
        let row' : DiskRow := { row with access_count := row.access_count + 1,
                                         last_accessed_at := now }
        let mgr1 := { mgr with disk_cache := dictInsert mgr.disk_cache cache_key row' }
        let promoted : CacheEntry := ⟨row.value, row.expires_at, now, 0⟩
        let mgr2 :=
          if mgr1.enable_memory_cache then
            { mgr1 with memory_cache := dictInsert mgr1.memory_cache cache_key promoted }
          else mgr1
        (some row.value, mgr2)
      else (none, mgr)
    | none => (none, mgr)
  else (none, mgr)

/-- Embeds `CacheManager.get`: build the key, consult the memory cache
when enabled (lazy expiration on an expired entry, hit bookkeeping on a
live one), then the disk cache when enabled, else report not-found.
The source's skeleton performs no tier validation on the read path; the
elided store-lookup bodies are modelled from the spec (memory hit
updates `last_accessed_at`/`access_count` and the hit counter, an
expired memory entry is removed and counted as a miss). -/
def CacheManager.get (mgr : CacheManager) (ns : String)
    (key_components : List (String × JValue)) (tier : String) (now : Nat) :
    Option JValue × CacheManager :=
  let _ := tier
  let cache_key := generate_cache_key ns key_components
  if mgr.enable_memory_cache then
    match mgr.memory_cache.lookup cache_key with
    | some entry =>
      if now < entry.expires_at then
        let touched : CacheEntry :=
          { entry with last_accessed_at := now, access_count := entry.access_count + 1 }
        let statsHit : MemoryCacheStats :=
          { mgr.memory_cache_stats with hits := mgr.memory_cache_stats.hits + 1 }
        (some entry.value,
         { mgr with memory_cache := dictInsert mgr.memory_cache cache_key touched,
                    memory_cache_stats := statsHit })
      else
        let statsMiss : MemoryCacheStats :=
          { mgr.memory_cache_stats with misses := mgr.memory_cache_stats.misses + 1 }
        let mgr1 :=
          { mgr with memory_cache := mgr.memory_cache.filter (fun p => !(p.1 == cache_key)),
                     memory_cache_stats := statsMiss }
        diskLookup mgr1 cache_key now
    | none =>
        let statsMiss : MemoryCacheStats :=
          { mgr.memory_cache_stats with misses := mgr.memory_cache_stats.misses + 1 }
        let mgr1 := { mgr with memory_cache_stats := statsMiss }
        diskLookup mgr1 cache_key now
  else diskLookup mgr cache_key now

/-- Embeds `CacheManager.set`: reject a tier absent from `cache_tiers`
with `ValueError(\"Invalid cache tier: ...\")` (modelled as `Except.error`
carrying the message), otherwise build the key, compute
`expires_at = current_time + ttl`, and write through to each enabled
store (the elided write bodies follow the documented entry structure
and the SQLite schema; the memory write counts an insert). -/
def CacheManager.set (mgr : CacheManager) (ns : String)
    (key_components : List (String × JValue)) (value : JValue)
    (tier : String) (now : Nat) : Except String CacheManager :=
  match cache_tiers.lookup tier with
  | none => Except.error ("Invalid cache tier: " ++ tier)
  | some t =>
    let cache_key := generate_cache_key ns key_components
    let expires_at := now + t.ttl
    let memEntry : CacheEntry := ⟨value, expires_at, now, 0⟩
    let diskRow : DiskRow := ⟨value, tier, expires_at, now, 0, now⟩
    let statsIns : MemoryCacheStats :=
      { mgr.memory_cache_stats with inserts := mgr.memory_cache_stats.inserts + 1 }
    let mgr1 :=
      if mgr.enable_memory_cache then
        { mgr with memory_cache := dictInsert mgr.memory_cache cache_key memEntry,
                   memory_cache_stats := statsIns }
      else mgr
    let mgr2 :=
      if mgr1.enable_disk_cache then
        { mgr1 with disk_cache := dictInsert mgr1.disk_cache cache_key diskRow }
      else mgr1
    Except.ok mgr2

/-- Exact-key invalidation over both enabled stores, counting removed
rows.  Modelled from the spec: the source elides the removal bodies of
`invalidate`. -/
def invalidateExact (mgr : CacheManager) (cache_key : String) : Nat × CacheManager :=
  let memCount := if mgr.enable_memory_cache
    then mgr.memory_cache.countP (fun p => p.1 == cache_key) else 0
  let mem' := if mgr.enable_memory_cache
    then mgr.memory_cache.filter (fun p => !(p.1 == cache_key)) else mgr.memory_cache
  let diskCount := if mgr.enable_disk_cache
    then mgr.disk_cache.countP (fun p => p.1 == cache_key) else 0
  let disk' := if mgr.enable_disk_cache
    then mgr.disk_cache.filter (fun p => !(p.1 == cache_key)) else mgr.disk_cache
  (memCount + diskCount, { mgr with memory_cache := mem', disk_cache := disk' })

/-- Namespace-wide invalidation: removes every entry whose key starts
with `"namespace:"` from both enabled stores, counting removals.
Modelled from the spec (prefix delete on disk, scan-and-remove in
memory). -/
def invalidateNamespaceWide (mgr : CacheManager) (ns : String) : Nat × CacheManager :=
  let pre := ns ++ ":"
  let memCount := if mgr.enable_memory_cache
    then mgr.memory_cache.countP (fun p => strStartsWith p.1 pre) else 0
  let mem' := if mgr.enable_memory_cache
    then mgr.memory_cache.filter (fun p => !(strStartsWith p.1 pre)) else mgr.memory_cache
  let diskCount := if mgr.enable_disk_cache
    then mgr.disk_cache.countP (fun p => strStartsWith p.1 pre) else 0
  let disk' := if mgr.enable_disk_cache
    then mgr.disk_cache.filter (fun p => !(strStartsWith p.1 pre)) else mgr.disk_cache
  (memCount + diskCount, { mgr with memory_cache := mem', disk_cache := disk' })

/-- Embeds `CacheManager.invalidate`.  The branch condition is the
source's `if key_components:` — Python truthiness, under which both
`None` and an **empty** dict select the namespace-wide branch; only a
non-empty mapping selects the exact-key branch. -/
def CacheManager.invalidate (mgr : CacheManager) (ns : String)
    (key_components : Option (List (String × JValue))) : Nat × CacheManager :=
  match key_components with
  | some [] => invalidateNamespaceWide mgr ns
  | some comps => invalidateExact mgr (generate_cache_key ns comps)
  | none => invalidateNamespaceWide mgr ns

/-- Embeds the `hit_ratio` computation of `CacheManager.get_stats` for
the memory cache: `hits / (hits + misses)` guarded by
`(hits + misses) > 0`, else `0`.  Python float division is modelled
with exact rationals. -/
def get_stats_hit_rate (s : MemoryCacheStats) : ℚ :=
  if s.hits + s.misses > 0 then
    (s.hits : ℚ) / ((s.hits : ℚ) + (s.misses : ℚ))
  else 0

/-- Source's `isinstance(arg, (str, int, float, bool, type(None)))`
check in the `cached` decorator's default key derivation. -/
def is_primitive : JValue → Bool
  | JValue.null => true
  | JValue.bool _ => true
  | JValue.num _ => true
  | JValue.str _ => true
  | _ => false

/-- Embeds the `cached` decorator's default key-component derivation:
positional arguments become `arg_i`, keyword arguments keep their name,
and non-primitive values are replaced by a string rendering (Python
`str(value)`, modelled by the JSON rendering — only its determinism
matters to the claims). -/
def default_key_components (args : List JValue) (kwargs : List (String × JValue)) :
    List (String × JValue) :=
  let pos := args.enum.map
    (fun ia => ("arg_" ++ toString ia.1,
                if is_primitive ia.2 then ia.2 else JValue.str (dumps ia.2)))
  let kw := kwargs.map
    (fun kv => (kv.1, if is_primitive kv.2 then kv.2 else JValue.str (dumps kv.2)))
  pos ++ kw

/-- Embeds the wrapper body produced by the `cached` decorator.
`key_components` is the mapping the decorator derived (the supplied
`key_generator`, or `default_key_components args kwargs`); `func` is
the outcome of calling the wrapped function, `Except.error` standing
for a raised exception.  Mirrors the source exactly: a cached result
is returned only under `cached_result is not None` (a stored Python
`None` is indistinguishable from a miss, hence the `JValue.null`
match); on the miss path the function outcome is produced first, an
exception propagates before any `set`, and a successful result is
stored via `set` and returned. -/
def cached_call (mgr : CacheManager) (ns : String) (tier : String)
    (key_components : List (String × JValue)) (func : Except String JValue)
    (now : Nat) : Except String JValue × CacheManager :=
  let looked := CacheManager.get mgr ns key_components tier now
  let mgr1 := looked.2
  let cached_result : JValue :=
    match looked.1 with
    | some v => v
    | none => JValue.null
  match cached_result with
  | JValue.null =>
    match func with
    | Except.error e => (Except.error e, mgr1)
    | Except.ok result =>
      match CacheManager.set mgr1 ns key_components result tier now with
      | Except.ok mgr2 => (Except.ok result, mgr2)
      | Except.error msg => (Except.error msg, mgr1)
  | v => (Except.ok v, mgr1)

/-- Python truthiness on JSON values, as tested by the middleware's
`if cached_response:`. -/
def truthy : JValue → Bool
  | JValue.null => false
  | JValue.bool b => b
  | JValue.num n => !(n == 0)
  | JValue.str s => !(s == "")
  | JValue.arr [] => false
  | JValue.arr (_ :: _) => true
  | JValue.obj [] => false
  | JValue.obj (_ :: _) => true

/-- Flask request data consumed by `cache_middleware`: query
parameters, HTTP method, JSON flag and parsed JSON body. -/
structure Request where
  args : List (String × String)
  method : String
  is_json : Bool
  body : JValue

/-- Embeds the key-parameter derivation of `cache_middleware`: copy
every keyword argument except the auth parameters `user_id` and
`username`, overlay the query parameters, and for JSON POST/PUT
requests add `body_hash = md5(json.dumps(body, sort_keys=True))`. -/
def middlewareParams (kwargs : List (String × JValue)) (req : Request) :
    List (String × JValue) :=
  let params : List (String × JValue) :=
    kwargs.foldl
      (fun acc kv =>
        if kv.1 ≠ "user_id" ∧ kv.1 ≠ "username" then dictInsert acc kv.1 kv.2 else acc)
      []
  let params := req.args.foldl
    (fun acc kv => dictInsert acc kv.1 (JValue.str kv.2)) params
  if (req.method = "POST" ∨ req.method = "PUT") ∧ req.is_json then
    dictInsert params "body_hash" (JValue.str (md5Hex (dumps req.body)))
  else params

/-- Result of a wrapped Flask handler: either the source's
`(response, status_code)` tuple or a bare response object; the
response's `get_json()` payload is carried directly. -/
inductive HandlerResult where
  | tup (resp : JValue) (status : Nat) : HandlerResult
  | single (resp : JValue) : HandlerResult

/-- Embeds the wrapper body produced by `cache_middleware`: derive the
parameters, return `jsonify(cached_response)` when the cached value is
truthy, otherwise call the handler (an exception propagates before any
`set`); a tuple result is cached only when its status code is 200, a
bare response is cached unconditionally, and the handler's own result
is returned either way.  (`hasattr(response, "get_json")` holds for
the response objects modelled here.) -/
def cache_middleware_call (mgr : CacheManager) (ns : String) (tier : String)
    (kwargs : List (String × JValue)) (req : Request)
    (f : Except String HandlerResult) (now : Nat) :
    Except String HandlerResult × CacheManager :=
  let params := middlewareParams kwargs req
  let looked := CacheManager.get mgr ns params tier now
  let mgr1 := looked.2
  let cached_response : JValue :=
    match looked.1 with
    | some v => v
    | none => JValue.null
  if truthy cached_response then
    (Except.ok (HandlerResult.single cached_response), mgr1)
  else
    match f with
    | Except.error e => (Except.error e, mgr1)
    | Except.ok (HandlerResult.tup resp status) =>
      if status = 200 then
        match CacheManager.set mgr1 ns params resp tier now with
        | Except.ok mgr2 => (Except.ok (HandlerResult.tup resp status), mgr2)
        | Except.error msg => (Except.error msg, mgr1)
      else (Except.ok (HandlerResult.tup resp status), mgr1)
    | Except.ok (HandlerResult.single resp) =>
      match CacheManager.set mgr1 ns params resp tier now with
      | Except.ok mgr2 => (Except.ok (HandlerResult.single resp), mgr2)
      | Except.error msg => (Except.error msg, mgr1)

/-! Lemma layer: association-list, counting and sorting facts used by
the claim theorems. -/

theorem lookup_dictInsert_self {α : Type} (l : List (String × α)) (k : String) (v : α) :
    (dictInsert l k v).lookup k = some v := by
  induction l with
  | nil => simp [dictInsert, List.lookup]
  | cons p rest ih =>
    obtain ⟨k', v'⟩ := p
    by_cases h : k' = k
    · subst h
      simp [dictInsert, List.lookup]
    · simp only [dictInsert, if_neg h, List.lookup]
      have : (k == k') = false := by
        simp [beq_iff_eq]
        exact fun hk => h hk.symm
      simp [this, ih]

theorem lookup_dictInsert_ne {α : Type} (l : List (String × α)) (k k' : String) (v : α)
    (h : k' ≠ k) : (dictInsert l k v).lookup k' = l.lookup k' := by
  induction l with
  | nil =>
    simp only [dictInsert, List.lookup]
    have : (k' == k) = false := by simp [beq_iff_eq, h]
    simp [this]
  | cons p rest ih =>
    obtain ⟨k₀, v₀⟩ := p
    by_cases hk : k₀ = k
    · subst hk
      have hne : (k' == k₀) = false := by simp [beq_iff_eq, h]
      simp [dictInsert, List.lookup, hne]
    · simp only [dictInsert, if_neg hk, List.lookup]
      cases hbe : (k' == k₀) <;> simp [ih]

theorem lookup_filter_not_key {α : Type} (l : List (String × α)) (key k : String) :
    (l.filter (fun p => !(p.1 == key))).lookup k
      = if k = key then none else l.lookup k := by
  induction l with
  | nil => simp [List.lookup]
  | cons p rest ih =>
    obtain ⟨k₀, v₀⟩ := p
    by_cases h0 : k₀ = key
    · subst h0
      by_cases hk : k = k₀
      · subst hk
        simp [List.filter_cons, ih]
      · have hne : (k == k₀) = false := by simp [beq_iff_eq, hk]
        simp [List.filter_cons, ih, hk, List.lookup, hne]
    · have : (!(k₀ == key)) = true := by simp [beq_iff_eq, h0]
      by_cases hk : k = k₀
      · subst hk
        simp [List.filter_cons, this, List.lookup, h0]
      · have hne : (k == k₀) = false := by simp [beq_iff_eq, hk]
        simp [List.filter_cons, this, List.lookup, hne, ih]

theorem lookup_filter_not_pref {α : Type} (l : List (String × α)) (pre k : String) :
    (l.filter (fun p => !(strStartsWith p.1 pre))).lookup k
      = if strStartsWith k pre then none else l.lookup k := by
  induction l with
  | nil => simp [List.lookup]
  | cons p rest ih =>
    obtain ⟨k₀, v₀⟩ := p
    by_cases h0 : strStartsWith k₀ pre = true
    · by_cases hk : k = k₀
      · subst hk
        simp [List.filter_cons, h0, ih]
      · have hne : (k == k₀) = false := by simp [beq_iff_eq, hk]
        simp [List.filter_cons, h0, ih, List.lookup, hne]
    · have h0' : strStartsWith k₀ pre = false := by
        cases h : strStartsWith k₀ pre
        · rfl
        · exact absurd h h0
      by_cases hk : k = k₀
      · subst hk
        simp [List.filter_cons, h0', List.lookup, ih]
      · have hne : (k == k₀) = false := by simp [beq_iff_eq, hk]
        simp [List.filter_cons, h0', List.lookup, hne, ih]

theorem countP_add_length_filter_not {α : Type} (l : List α) (p : α → Bool) :
    l.countP p + (l.filter (fun a => !(p a))).length = l.length := by
  induction l with
  | nil => simp
  | cons a rest ih =>
    cases h : p a <;>
      simp [List.countP_cons, List.filter_cons, h, ← ih] <;> omega

theorem charListLe_total (a b : List Char) :
    charListLe a b = true ∨ charListLe b a = true := by
  induction a generalizing b with
  | nil => left; simp [charListLe]
  | cons x xs ih =>
    cases b with
    | nil => right; simp [charListLe]
    | cons y ys =>
      by_cases h1 : x.toNat < y.toNat
      · left
        simp [charListLe, h1]
      · by_cases h2 : y.toNat < x.toNat
        · right
          simp [charListLe, h2]
        · rcases ih ys with h | h
          · left
            simp [charListLe, h1, h2, h]
          · right
            simp [charListLe, h1, h2, h]

theorem charListLe_trans (a b c : List Char) (hab : charListLe a b = true)
    (hbc : charListLe b c = true) : charListLe a c = true := by
  induction a generalizing b c with
  | nil => simp [charListLe]
  | cons x xs ih =>
    cases b with
    | nil => simp [charListLe] at hab
    | cons y ys =>
      cases c with
      | nil => simp [charListLe] at hbc
      | cons z zs =>
        simp only [charListLe] at hab hbc ⊢
        by_cases h1 : x.toNat < y.toNat
        · by_cases h2 : y.toNat < z.toNat
          · have : x.toNat < z.toNat := by omega
            simp [this]
          · by_cases h3 : z.toNat < y.toNat
            · simp [h2, h3] at hbc
            · have : x.toNat < z.toNat := by omega
              simp [this]
        · by_cases h1' : y.toNat < x.toNat
          · simp [h1, h1'] at hab
          · by_cases h2 : y.toNat < z.toNat
            · have : x.toNat < z.toNat := by omega
              simp [this]
            · by_cases h3 : z.toNat < y.toNat
              · simp [h2, h3] at hbc
              · have hx : ¬ x.toNat < z.toNat := by omega
                have hz : ¬ z.toNat < x.toNat := by omega
                simp only [h1, h1', if_neg, ite_false] at hab
                simp only [h2, h3, if_neg, ite_false] at hbc
                simp [hx, hz]
                exact ih ys zs (by simpa using hab) (by simpa using hbc)

theorem charListLe_antisymm (a b : List Char) (hab : charListLe a b = true)
    (hba : charListLe b a = true) : a = b := by
  induction a generalizing b with
  | nil =>
    cases b with
    | nil => rfl
    | cons y ys => simp [charListLe] at hba
  | cons x xs ih =>
    cases b with
    | nil => simp [charListLe] at hab
    | cons y ys =>
      simp only [charListLe] at hab hba
      by_cases h1 : x.toNat < y.toNat
      · have : ¬ y.toNat < x.toNat := by omega
        simp [h1, this] at hba
      · by_cases h2 : y.toNat < x.toNat
        · simp [h1, h2] at hab
        · have hxy : x = y := Char.ext (UInt32.ext (show x.toNat = y.toNat by omega))
          subst hxy
          simp only [h1, h2, if_neg, ite_false] at hab hba
          have := ih ys (by simpa using hab) (by simpa using hba)
          rw [this]

theorem strLe_total (a b : String) : strLe a b = true ∨ strLe b a = true :=
  charListLe_total a.data b.data

theorem strLe_trans (a b c : String) (hab : strLe a b = true) (hbc : strLe b c = true) :
    strLe a c = true :=
  charListLe_trans a.data b.data c.data hab hbc

theorem strLe_antisymm (a b : String) (hab : strLe a b = true) (hba : strLe b a = true) :
    a = b :=
  String.ext (charListLe_antisymm a.data b.data hab hba)

theorem perm_orderedInsertBy {α : Type} (le : α → α → Bool) (a : α) (l : List α) :
    (orderedInsertBy le a l).Perm (a :: l) := by
  induction l with
  | nil => simp [orderedInsertBy]
  | cons b rest ih =>
    by_cases h : le a b = true
    · simp [orderedInsertBy, h]
    · have h' : le a b = false := by
        cases hx : le a b
        · rfl
        · exact absurd hx h
      simp only [orderedInsertBy, h', Bool.false_eq_true, if_false]
      exact (ih.cons b).trans (List.Perm.swap a b rest)

theorem perm_insertionSortBy {α : Type} (le : α → α → Bool) (l : List α) :
    (insertionSortBy le l).Perm l := by
  induction l with
  | nil => simp [insertionSortBy]
  | cons a rest ih =>
    exact (perm_orderedInsertBy le a (insertionSortBy le rest)).trans (ih.cons a)

theorem pairwise_orderedInsertBy {α : Type} (le : α → α → Bool)
    (htot : ∀ a b, le a b = true ∨ le b a = true)
    (htrans : ∀ a b c, le a b = true → le b c = true → le a c = true)
    (a : α) (l : List α) (hl : l.Pairwise (fun x y => le x y = true)) :
    (orderedInsertBy le a l).Pairwise (fun x y => le x y = true) := by
  induction l with
  | nil => simp [orderedInsertBy]
  | cons b rest ih =>
    rcases List.pairwise_cons.mp hl with ⟨hb, hrest⟩
    by_cases h : le a b = true
    · simp only [orderedInsertBy, h, if_true]
      refine List.pairwise_cons.mpr ⟨?_, hl⟩
      intro x hx
      rcases List.mem_cons.mp hx with hx | hx
      · subst hx; exact h
      · exact htrans a b x h (hb x hx)
    · have hba : le b a = true := by
        rcases htot a b with h' | h'
        · exact absurd h' h
        · exact h'
      have h' : le a b = false := by
        cases hx : le a b
        · rfl
        · exact absurd hx h
      simp only [orderedInsertBy, h', Bool.false_eq_true, if_false]
      refine List.pairwise_cons.mpr ⟨?_, ih hrest⟩
      intro x hx
      have hmem := (perm_orderedInsertBy le a rest).mem_iff.mp hx
      rcases List.mem_cons.mp hmem with hx' | hx'
      · subst hx'; exact hba
      · exact hb x hx'

theorem pairwise_insertionSortBy {α : Type} (le : α → α → Bool)
    (htot : ∀ a b, le a b = true ∨ le b a = true)
    (htrans : ∀ a b c, le a b = true → le b c = true → le a c = true)
    (l : List α) :
    (insertionSortBy le l).Pairwise (fun x y => le x y = true) := by
  induction l with
  | nil => simp [insertionSortBy]
  | cons a rest ih => exact pairwise_orderedInsertBy le htot htrans a _ ih

instance : IsAntisymm String (fun a b => strLe a b = true) :=
  ⟨fun a b => strLe_antisymm a b⟩

theorem insertionSortBy_strLe_eq_of_perm (l₁ l₂ : List String) (h : l₁.Perm l₂) :
    insertionSortBy strLe l₁ = insertionSortBy strLe l₂ := by
  have hp : (insertionSortBy strLe l₁).Perm (insertionSortBy strLe l₂) :=
    ((perm_insertionSortBy strLe l₁).trans h).trans (perm_insertionSortBy strLe l₂).symm
  exact List.eq_of_perm_of_sorted hp
    (pairwise_insertionSortBy strLe strLe_total strLe_trans l₁)
    (pairwise_insertionSortBy strLe strLe_total strLe_trans l₂)

theorem lookup_eq_of_perm_nodup {β : Type} {l₁ l₂ : List (String × β)}
    (h : l₁.Perm l₂) (hnd : (l₁.map Prod.fst).Nodup) (k : String) :
    l₁.lookup k = l₂.lookup k := by
  induction h with
  | nil => rfl
  | cons x h ih =>
    obtain ⟨k₀, v₀⟩ := x
    cases hk : (k == k₀) <;> simp only [List.lookup, hk]
    exact ih (by
      simp only [List.map_cons, List.nodup_cons] at hnd
      exact hnd.2)
  | swap x y l =>
    obtain ⟨kx, vx⟩ := x
    obtain ⟨ky, vy⟩ := y
    have hne : ky ≠ kx := by
      simp only [List.map_cons, List.nodup_cons, List.mem_cons] at hnd
      intro h'
      exact hnd.1 (Or.inl h')
    cases hx : (k == kx) <;> cases hy : (k == ky) <;>
      simp only [List.lookup, hx, hy]
    exact absurd ((beq_iff_eq.mp hy).symm.trans (beq_iff_eq.mp hx)) hne
  | trans h₁ h₂ ih₁ ih₂ =>
    have hnd₂ := ((h₁.map Prod.fst).nodup_iff).mp hnd
    exact (ih₁ hnd).trans (ih₂ hnd₂)

theorem cache_tiers_ttl_pos (t : String) (info : TierInfo)
    (h : cache_tiers.lookup t = some info) : 0 < info.ttl := by
  simp only [cache_tiers, List.lookup] at h
  cases h1 : (t == "short") with
  | true =>
    rw [h1] at h
    cases h
    decide
  | false =>
    rw [h1] at h
    cases h2 : (t == "medium") with
    | true =>
      rw [h2] at h
      cases h
      decide
    | false =>
      rw [h2] at h
      cases h3 : (t == "long") with
      | true =>
        rw [h3] at h
        cases h
        decide
      | false =>
        rw [h3] at h
        cases h

theorem hexOfNat_length (w v : Nat) : (hexOfNat w v).length = w := by
  induction w generalizing v with
  | zero => rfl
  | succ n ih => simp [hexOfNat, List.length_append, ih]

theorem md5Hex_length (s : String) : (md5Hex s).length = 32 := by
  have : ∀ l : List Char, (String.mk l).length = l.length := fun l => rfl
  simp [md5Hex, this, hexOfNat_length]

/-! Claim theorems. -/

/-- C2: for every namespace and every two component mappings containing
exactly the same key/value pairs in any insertion order (duplicate-free
keys, as Python dicts guarantee), `_generate_cache_key` returns the
identical cache-key string. -/
theorem C2_key_determinism (ns : String) (l₁ l₂ : List (String × JValue))
    (hperm : l₁.Perm l₂) (hnd : (l₁.map Prod.fst).Nodup) :
    generate_cache_key ns l₁ = generate_cache_key ns l₂ := by
  have hkeys : insertionSortBy strLe (l₁.map Prod.fst)
      = insertionSortBy strLe (l₂.map Prod.fst) :=
    insertionSortBy_strLe_eq_of_perm _ _ (hperm.map Prod.fst)
  have hlk : ∀ k, lookup1 k l₁ = lookup1 k l₂ := by
    intro k
    unfold lookup1
    rw [lookup_eq_of_perm_nodup hperm hnd k]
  have hmap : (insertionSortBy strLe (l₂.map Prod.fst)).map (fun k => (k, lookup1 k l₁))
      = (insertionSortBy strLe (l₂.map Prod.fst)).map (fun k => (k, lookup1 k l₂)) :=
    List.map_congr_left (fun a _ => by rw [hlk a])
  simp only [generate_cache_key]
  rw [hkeys, hmap]

/-- Witness for C2 at the spec's own end-to-end example shape: the same
two components in swapped insertion order give the same key. -/
theorem C2_key_determinism_witness :
    generate_cache_key "solar_resource" [("lat", JValue.num 39), ("lon", JValue.num (-104))]
      = generate_cache_key "solar_resource" [("lon", JValue.num (-104)), ("lat", JValue.num 39)] :=
  C2_key_determinism "solar_resource" _ _
    (List.Perm.swap ("lon", JValue.num (-104)) ("lat", JValue.num 39) [])
    (by decide)

/-- C4 counterexample: called with an empty namespace,
`_generate_cache_key` does not fail — it returns the well-formed key
`":" ++ digest(":\x7b\"lat\": 39\x7d")` (the source contains no
namespace validation and no raise). -/
theorem C4_counterexample :
    generate_cache_key "" [("lat", JValue.num 39)] = ":" ++ md5Hex ":\x7b\"lat\": 39\x7d" := rfl

/-- C4 amended: the key builder performs no namespace validation; with
an empty namespace it still produces a cache key, of the usual shape
`":" ++ 32-character digest` (33 characters starting with ":"),
instead of raising an InvalidKeyError. -/
theorem C4_empty_namespace_key (comps : List (String × JValue)) :
    (generate_cache_key "" comps).length = 33 ∧
      strStartsWith (generate_cache_key "" comps) ":" = true := by
  constructor
  · simp only [generate_cache_key]
    rw [String.length_append, String.length_append, md5Hex_length]
    rfl
  · simp only [generate_cache_key, strStartsWith]
    rw [String.data_append, String.data_append]
    simp [charListPref]

/-- C6: for every stats state, the reported memory-cache hit ratio is
0 when there have been no accesses, and otherwise is exactly
`hits / (hits + misses)` with a provably nonzero denominator (the
source guards the division with `(hits + misses) > 0`). -/
theorem C6_hit_rate_correct (s : MemoryCacheStats) :
    (s.hits + s.misses = 0 → get_stats_hit_rate s = 0) ∧
    (0 < s.hits + s.misses →
      ((s.hits : ℚ) + (s.misses : ℚ)) ≠ 0 ∧
      get_stats_hit_rate s * ((s.hits : ℚ) + (s.misses : ℚ)) = (s.hits : ℚ)) := by
  constructor
  · intro h
    simp [get_stats_hit_rate, h]
  · intro h
    have hne : ((s.hits : ℚ) + (s.misses : ℚ)) ≠ 0 := by
      have h0 : ((s.hits + s.misses : ℕ) : ℚ) ≠ 0 := by
        exact_mod_cast Nat.pos_iff_ne_zero.mp h
      rwa [Nat.cast_add] at h0
    refine ⟨hne, ?_⟩
    simp only [get_stats_hit_rate, h, if_pos]
    exact div_mul_cancel₀ _ hne

/-- Witness for C6: 3 hits and 1 miss give ratio 3/4 (times the
denominator equals the hits), and a fresh stats state reports 0. -/
theorem C6_hit_rate_witness :
    get_stats_hit_rate ⟨3, 1, 0, 0⟩ * (((3 : ℕ) : ℚ) + ((1 : ℕ) : ℚ)) = ((3 : ℕ) : ℚ) ∧
      get_stats_hit_rate ⟨0, 0, 5, 2⟩ = 0 :=
  ⟨((C6_hit_rate_correct ⟨3, 1, 0, 0⟩).2 (by decide)).2,
   (C6_hit_rate_correct ⟨0, 0, 5, 2⟩).1 rfl⟩

/-- Unwraps a successful `set`, falling back to a default manager;
used only to state closed witness instances. -/
def okOr (e : Except String CacheManager) (d : CacheManager) : CacheManager :=
  match e with
  | Except.ok m => m
  | Except.error _ => d

/-- Cache manager constructed with both caches disabled (the
constructor's `enable_memory_cache=False, enable_disk_cache=False`
configuration). -/
def noCacheMgr : CacheManager := ⟨false, false, [], [], ⟨0, 0, 0, 0⟩⟩

/-- C1: with a registered tier and at least one store enabled,
`set(namespace, components, value, tier)` followed immediately by
`get` with the same namespace/components/tier (same clock instant, no
intervening expiration, eviction or invalidation) returns exactly the
stored value. -/
theorem C1_round_trip (mgr : CacheManager) (ns : String)
    (comps : List (String × JValue)) (v : JValue) (tier : String) (now : Nat)
    (info : TierInfo) (mgr' : CacheManager)
    (hreg : cache_tiers.lookup tier = some info)
    (hflags : mgr.enable_memory_cache = true ∨ mgr.enable_disk_cache = true)
    (hset : CacheManager.set mgr ns comps v tier now = Except.ok mgr') :
    (CacheManager.get mgr' ns comps tier now).1 = some v := by
  have httl : 0 < info.ttl := cache_tiers_ttl_pos tier info hreg
  have hlt : now < now + info.ttl := by omega
  simp only [CacheManager.set, hreg, Except.ok.injEq] at hset
  subst hset
  cases hm : mgr.enable_memory_cache <;> cases hd : mgr.enable_disk_cache
  · rw [hm, hd] at hflags
    simp at hflags
  · simp [CacheManager.get, diskLookup, hm, hd, lookup_dictInsert_self, hlt]
  · simp [CacheManager.get, diskLookup, hm, hd, lookup_dictInsert_self, hlt]
  · simp [CacheManager.get, diskLookup, hm, hd, lookup_dictInsert_self, hlt]

/-- Witness for C1: storing the spec's end-to-end example value under
the `long` tier and reading it back at the same instant returns it. -/
theorem C1_round_trip_witness :
    (CacheManager.get
        (okOr (CacheManager.set initManager "solar_resource"
          [("lat", JValue.num 39), ("lon", JValue.num (-104))]
          (JValue.num 483) "long" 100) initManager)
        "solar_resource" [("lat", JValue.num 39), ("lon", JValue.num (-104))]
        "long" 100).1
      = some (JValue.num 483) :=
  C1_round_trip initManager "solar_resource"
    [("lat", JValue.num 39), ("lon", JValue.num (-104))] (JValue.num 483) "long" 100
    ⟨2592000, "Long-term cache for slow-changing data like solar radiation"⟩
    (okOr (CacheManager.set initManager "solar_resource"
      [("lat", JValue.num 39), ("lon", JValue.num (-104))]
      (JValue.num 483) "long" 100) initManager)
    rfl (Or.inl rfl) rfl

/-- C3 counterexample: a `get` whose tier is not registered does not
fail — on a manager whose (elided) store-lookup blocks are disabled, so
that only source-visible lines run, the call completes normally and
returns a miss. -/
theorem C3_counterexample :
    cache_tiers.lookup "bogus" = none ∧
      CacheManager.get noCacheMgr "solar_resource" [("lat", JValue.num 39)] "bogus" 5
        = (none, noCacheMgr) :=
  ⟨rfl, rfl⟩

/-- C3 amended: only `set` validates the tier — an unregistered tier
makes `set` raise `ValueError("Invalid cache tier: ...")` before
touching either store, while `get` performs no tier validation and
proceeds as an ordinary lookup (with both stores disabled it returns a
miss and an unchanged manager for any tier string). -/
theorem C3_set_validates_get_does_not (mgr : CacheManager) (ns : String)
    (comps : List (String × JValue)) (v : JValue) (tier : String) (now : Nat)
    (hunknown : cache_tiers.lookup tier = none) :
    CacheManager.set mgr ns comps v tier now
        = Except.error ("Invalid cache tier: " ++ tier) ∧
      (mgr.enable_memory_cache = false → mgr.enable_disk_cache = false →
        CacheManager.get mgr ns comps tier now = (none, mgr)) := by
  constructor
  · simp [CacheManager.set, hunknown]
  · intro h1 h2
    simp [CacheManager.get, diskLookup, h1, h2]

/-- Witness for C3's amended statement at the tier string "bogus". -/
theorem C3_amended_witness :
    CacheManager.set noCacheMgr "solar_resource" [] (JValue.num 1) "bogus" 5
        = Except.error ("Invalid cache tier: " ++ "bogus") ∧
      CacheManager.get noCacheMgr "solar_resource" [] "bogus" 5 = (none, noCacheMgr) :=
  ⟨(C3_set_validates_get_does_not noCacheMgr "solar_resource" [] (JValue.num 1)
      "bogus" 5 rfl).1,
   (C3_set_validates_get_does_not noCacheMgr "solar_resource" [] (JValue.num 1)
      "bogus" 5 rfl).2 rfl rfl⟩

/-- C5: the registry's TTLs are short = 3600 s, medium = 86400 s,
long = 2592000 s, and every successful `set` stores, in each enabled
store, an entry created at the call instant whose `expires_at` is
exactly `created_at + ttl` of the tier (memory entries carry
`last_accessed_at = now`, the creation instant). -/
theorem C5_expires_at_created_plus_ttl (mgr : CacheManager) (ns : String)
    (comps : List (String × JValue)) (v : JValue) (tier : String) (now : Nat)
    (info : TierInfo) (mgr' : CacheManager)
    (hreg : cache_tiers.lookup tier = some info)
    (hset : CacheManager.set mgr ns comps v tier now = Except.ok mgr') :
    ((cache_tiers.lookup "short").map TierInfo.ttl = some 3600 ∧
     (cache_tiers.lookup "medium").map TierInfo.ttl = some 86400 ∧
     (cache_tiers.lookup "long").map TierInfo.ttl = some 2592000) ∧
    (mgr.enable_memory_cache = true →
      mgr'.memory_cache.lookup (generate_cache_key ns comps)
        = some ⟨v, now + info.ttl, now, 0⟩) ∧
    (mgr.enable_disk_cache = true →
      mgr'.disk_cache.lookup (generate_cache_key ns comps)
        = some ⟨v, tier, now + info.ttl, now, 0, now⟩) := by
  refine ⟨⟨rfl, rfl, rfl⟩, ?_, ?_⟩
  · intro hm
    simp only [CacheManager.set, hreg, Except.ok.injEq] at hset
    subst hset
    cases hd : mgr.enable_disk_cache <;>
      simp [hm, hd, lookup_dictInsert_self]
  · intro hd
    simp only [CacheManager.set, hreg, Except.ok.injEq] at hset
    subst hset
    cases hm : mgr.enable_memory_cache <;>
      simp [hm, hd, lookup_dictInsert_self]

/-- Witness for C5: a concrete `set` on the `medium` tier at t = 50
stores entries expiring at 50 + 86400 in both stores. -/
theorem C5_expires_witness :
    (okOr (CacheManager.set initManager "utility_rates" [("zip", JValue.str "80202")]
        (JValue.num 11) "medium" 50) initManager).memory_cache.lookup
        (generate_cache_key "utility_rates" [("zip", JValue.str "80202")])
      = some ⟨JValue.num 11, 50 + (86400 : Nat), 50, 0⟩ :=
  (C5_expires_at_created_plus_ttl initManager "utility_rates" [("zip", JValue.str "80202")]
    (JValue.num 11) "medium" 50
    ⟨86400, "Medium-term cache for frequently accessed locations"⟩
    (okOr (CacheManager.set initManager "utility_rates" [("zip", JValue.str "80202")]
      (JValue.num 11) "medium" 50) initManager)
    rfl rfl).2.1 rfl

/-- Manager holding one entry, stored under namespace "ns" with the
non-empty component mapping `a=1`; used by the invalidation claims. -/
def invDemoMgr : CacheManager :=
  okOr (CacheManager.set initManager "ns" [("a", JValue.num 1)] (JValue.num 7) "short" 0)
    initManager

/-- C7 counterexample: `invalidate("ns", \x7b\x7d)` — a supplied but
empty component mapping.  The claim predicts removal of exactly the
single entry keyed by `(ns, \x7b\x7d)`; that key differs from the
stored entry's key, so the stored entry should survive and the count
should be 0.  Instead the source's truthiness test `if key_components:`
routes the empty dict to the namespace-wide branch: the stored entry is
removed from both tiers and the call reports 2 removals. -/
theorem C7_counterexample :
    (invDemoMgr.memory_cache.lookup
        (generate_cache_key "ns" [("a", JValue.num 1)])).isSome = true ∧
    generate_cache_key "ns" [("a", JValue.num 1)] ≠ generate_cache_key "ns" [] ∧
    (CacheManager.invalidate invDemoMgr "ns"
        (some [])).2.memory_cache.lookup
        (generate_cache_key "ns" [("a", JValue.num 1)]) = none ∧
    (CacheManager.invalidate invDemoMgr "ns" (some [])).1 = 2 := by
  refine ⟨rfl, ?_, rfl, rfl⟩
  decide

/-- C7 amended: with both stores enabled, `invalidate` with a
**non-empty** component mapping removes exactly the single entry with
the derived key from both tiers; with components omitted **or supplied
as the empty mapping** (Python truthiness of `if key_components:`), it
removes exactly the entries whose key starts with `"namespace:"` from
both tiers; in every case the returned count equals the total number
of entries removed across the two stores. -/
theorem C7_invalidate_behaviour (mgr : CacheManager) (ns : String)
    (c0 : String × JValue) (cs : List (String × JValue)) (k : String)
    (hm : mgr.enable_memory_cache = true) (hd : mgr.enable_disk_cache = true) :
    ((CacheManager.invalidate mgr ns (some (c0 :: cs))).2.memory_cache.lookup k
        = if k = generate_cache_key ns (c0 :: cs) then none
          else mgr.memory_cache.lookup k) ∧
    ((CacheManager.invalidate mgr ns (some (c0 :: cs))).2.disk_cache.lookup k
        = if k = generate_cache_key ns (c0 :: cs) then none
          else mgr.disk_cache.lookup k) ∧
    ((CacheManager.invalidate mgr ns (some (c0 :: cs))).1
        + (CacheManager.invalidate mgr ns (some (c0 :: cs))).2.memory_cache.length
        + (CacheManager.invalidate mgr ns (some (c0 :: cs))).2.disk_cache.length
      = mgr.memory_cache.length + mgr.disk_cache.length) ∧
    ((CacheManager.invalidate mgr ns none).2.memory_cache.lookup k
        = if strStartsWith k (ns ++ ":") then none else mgr.memory_cache.lookup k) ∧
    ((CacheManager.invalidate mgr ns none).2.disk_cache.lookup k
        = if strStartsWith k (ns ++ ":") then none else mgr.disk_cache.lookup k) ∧
    ((CacheManager.invalidate mgr ns none).1
        + (CacheManager.invalidate mgr ns none).2.memory_cache.length
        + (CacheManager.invalidate mgr ns none).2.disk_cache.length
      = mgr.memory_cache.length + mgr.disk_cache.length) ∧
    CacheManager.invalidate mgr ns (some []) = CacheManager.invalidate mgr ns none := by
  refine ⟨?_, ?_, ?_, ?_, ?_, ?_, rfl⟩
  · simp [CacheManager.invalidate, invalidateExact, hm, hd, lookup_filter_not_key]
  · simp [CacheManager.invalidate, invalidateExact, hm, hd, lookup_filter_not_key]
  · simp only [CacheManager.invalidate, invalidateExact, hm, hd, if_true]
    have h1 := countP_add_length_filter_not mgr.memory_cache
      (fun p => p.1 == generate_cache_key ns (c0 :: cs))
    have h2 := countP_add_length_filter_not mgr.disk_cache
      (fun p => p.1 == generate_cache_key ns (c0 :: cs))
    omega
  · simp [CacheManager.invalidate, invalidateNamespaceWide, hm, hd, lookup_filter_not_pref]
  · simp [CacheManager.invalidate, invalidateNamespaceWide, hm, hd, lookup_filter_not_pref]
  · simp only [CacheManager.invalidate, invalidateNamespaceWide, hm, hd, if_true]
    have h1 := countP_add_length_filter_not mgr.memory_cache
      (fun p => strStartsWith p.1 (ns ++ ":"))
    have h2 := countP_add_length_filter_not mgr.disk_cache
      (fun p => strStartsWith p.1 (ns ++ ":"))
    omega

/-- Witness for C7's amended statement: exact-key invalidation on the
one-entry manager preserves total entry count plus removals. -/
theorem C7_invalidate_witness :
    (CacheManager.invalidate invDemoMgr "ns" (some [("a", JValue.num 1)])).1
        + (CacheManager.invalidate invDemoMgr "ns"
            (some [("a", JValue.num 1)])).2.memory_cache.length
        + (CacheManager.invalidate invDemoMgr "ns"
            (some [("a", JValue.num 1)])).2.disk_cache.length
      = invDemoMgr.memory_cache.length + invDemoMgr.disk_cache.length :=
  (C7_invalidate_behaviour invDemoMgr "ns" ("a", JValue.num 1) [] "unused"
    rfl rfl).2.2.1

theorem diskLookup_miss (m : CacheManager) (k : String) (now : Nat)
    (h : (diskLookup m k now).1 = none) : (diskLookup m k now).2 = m := by
  cases hd : m.enable_disk_cache with
  | false => simp [diskLookup, hd]
  | true =>
    simp only [diskLookup, hd, if_true] at h ⊢
    cases hl : m.disk_cache.lookup k with
    | none => simp [hl]
    | some row =>
      simp only [hl] at h ⊢
      by_cases hliv : now < row.expires_at
      · simp [hliv] at h
      · simp [hliv]

theorem get_miss_no_write (mgr : CacheManager) (ns : String)
    (comps : List (String × JValue)) (tier : String) (now : Nat)
    (hmiss : (CacheManager.get mgr ns comps tier now).1 = none) :
    (CacheManager.get mgr ns comps tier now).2.disk_cache = mgr.disk_cache ∧
    ∀ k, ((CacheManager.get mgr ns comps tier now).2.memory_cache.lookup k).isSome = true →
      (mgr.memory_cache.lookup k).isSome = true := by
  cases hm : mgr.enable_memory_cache with
  | false =>
    simp only [CacheManager.get, hm, Bool.false_eq_true, if_false] at hmiss ⊢
    rw [diskLookup_miss _ _ _ hmiss]
    exact ⟨rfl, fun k hk => hk⟩
  | true =>
    cases hl : mgr.memory_cache.lookup (generate_cache_key ns comps) with
    | some entry =>
      by_cases hliv : now < entry.expires_at
      · simp [CacheManager.get, hm, hl, hliv] at hmiss
      · simp only [CacheManager.get, hm, hl, if_true, hliv, if_false] at hmiss ⊢
        rw [diskLookup_miss _ _ _ hmiss]
        constructor
        · rfl
        · intro k hk
          rw [lookup_filter_not_key] at hk
          by_cases hke : k = generate_cache_key ns comps
          · rw [if_pos hke] at hk
            simp at hk
          · rwa [if_neg hke] at hk
    | none =>
      simp only [CacheManager.get, hm, hl, if_true] at hmiss ⊢
      rw [diskLookup_miss _ _ _ hmiss]
      exact ⟨rfl, fun k hk => hk⟩

theorem cached_call_miss_error (mgr : CacheManager) (ns tier : String)
    (comps : List (String × JValue)) (now : Nat) (e : String)
    (hmiss : ((CacheManager.get mgr ns comps tier now).1.getD JValue.null) = JValue.null) :
    cached_call mgr ns tier comps (Except.error e) now
      = (Except.error e, (CacheManager.get mgr ns comps tier now).2) := by
  cases ho : (CacheManager.get mgr ns comps tier now).1 with
  | none => simp [cached_call, ho]
  | some v =>
    rw [ho] at hmiss
    simp only [Option.getD_some] at hmiss
    subst hmiss
    simp [cached_call, ho]

theorem cached_call_miss_ok (mgr : CacheManager) (ns tier : String)
    (comps : List (String × JValue)) (now : Nat) (r : JValue) (mgr2 : CacheManager)
    (hmiss : ((CacheManager.get mgr ns comps tier now).1.getD JValue.null) = JValue.null)
    (hset : CacheManager.set (CacheManager.get mgr ns comps tier now).2 ns comps r tier now
      = Except.ok mgr2) :
    cached_call mgr ns tier comps (Except.ok r) now = (Except.ok r, mgr2) := by
  cases ho : (CacheManager.get mgr ns comps tier now).1 with
  | none => simp [cached_call, ho, hset]
  | some v =>
    rw [ho] at hmiss
    simp only [Option.getD_some] at hmiss
    subst hmiss
    simp [cached_call, ho, hset]

theorem middleware_not_truthy_error (mgr : CacheManager) (ns tier : String)
    (kwargs : List (String × JValue)) (req : Request) (now : Nat) (e : String)
    (hfalse : truthy ((CacheManager.get mgr ns (middlewareParams kwargs req) tier now).1.getD
        JValue.null) = false) :
    cache_middleware_call mgr ns tier kwargs req (Except.error e) now
      = (Except.error e,
         (CacheManager.get mgr ns (middlewareParams kwargs req) tier now).2) := by
  cases ho : (CacheManager.get mgr ns (middlewareParams kwargs req) tier now).1 with
  | none => simp [cache_middleware_call, ho, truthy]
  | some v =>
    rw [ho] at hfalse
    simp only [Option.getD_some] at hfalse
    simp [cache_middleware_call, ho, hfalse]

theorem middleware_not_truthy_ok200 (mgr : CacheManager) (ns tier : String)
    (kwargs : List (String × JValue)) (req : Request) (now : Nat) (resp : JValue)
    (mgr2 : CacheManager)
    (hfalse : truthy ((CacheManager.get mgr ns (middlewareParams kwargs req) tier now).1.getD
        JValue.null) = false)
    (hset : CacheManager.set
        (CacheManager.get mgr ns (middlewareParams kwargs req) tier now).2
        ns (middlewareParams kwargs req) resp tier now = Except.ok mgr2) :
    cache_middleware_call mgr ns tier kwargs req
        (Except.ok (HandlerResult.tup resp 200)) now
      = (Except.ok (HandlerResult.tup resp 200), mgr2) := by
  cases ho : (CacheManager.get mgr ns (middlewareParams kwargs req) tier now).1 with
  | none => simp [cache_middleware_call, ho, truthy, hset]
  | some v =>
    rw [ho] at hfalse
    simp only [Option.getD_some] at hfalse
    simp [cache_middleware_call, ho, hfalse, hset]

theorem middleware_not_truthy_ok_non200 (mgr : CacheManager) (ns tier : String)
    (kwargs : List (String × JValue)) (req : Request) (now : Nat) (resp : JValue)
    (status : Nat)
    (hfalse : truthy ((CacheManager.get mgr ns (middlewareParams kwargs req) tier now).1.getD
        JValue.null) = false)
    (hstatus : status ≠ 200) :
    cache_middleware_call mgr ns tier kwargs req
        (Except.ok (HandlerResult.tup resp status)) now
      = (Except.ok (HandlerResult.tup resp status),
         (CacheManager.get mgr ns (middlewareParams kwargs req) tier now).2) := by
  cases ho : (CacheManager.get mgr ns (middlewareParams kwargs req) tier now).1 with
  | none => simp [cache_middleware_call, ho, truthy, hstatus]
  | some v =>
    rw [ho] at hfalse
    simp only [Option.getD_some] at hfalse
    simp [cache_middleware_call, ho, hfalse, hstatus]

theorem middleware_not_truthy_ok_single (mgr : CacheManager) (ns tier : String)
    (kwargs : List (String × JValue)) (req : Request) (now : Nat) (resp : JValue)
    (mgr2 : CacheManager)
    (hfalse : truthy ((CacheManager.get mgr ns (middlewareParams kwargs req) tier now).1.getD
        JValue.null) = false)
    (hset : CacheManager.set
        (CacheManager.get mgr ns (middlewareParams kwargs req) tier now).2
        ns (middlewareParams kwargs req) resp tier now = Except.ok mgr2) :
    cache_middleware_call mgr ns tier kwargs req
        (Except.ok (HandlerResult.single resp)) now
      = (Except.ok (HandlerResult.single resp), mgr2) := by
  cases ho : (CacheManager.get mgr ns (middlewareParams kwargs req) tier now).1 with
  | none => simp [cache_middleware_call, ho, truthy, hset]
  | some v =>
    rw [ho] at hfalse
    simp only [Option.getD_some] at hfalse
    simp [cache_middleware_call, ho, hfalse, hset]

/-- C8 counterexample: a successful non-200 result at the middleware
boundary is returned to the caller but never stored.  On a fresh
manager (a miss), the handler succeeds with the tuple
`(response, 404)`; the claim says a miss with a successful result is
stored via `set`, yet the wrapper leaves both stores exactly as the
lookup left them — empty — because the visible source caches a tuple
only when `status_code == 200`. -/
theorem C8_counterexample :
    cache_middleware_call initManager "api" "short" []
        ⟨[], "GET", false, JValue.null⟩
        (Except.ok (HandlerResult.tup (JValue.num 3) 404)) 0
      = (Except.ok (HandlerResult.tup (JValue.num 3) 404),
         (CacheManager.get initManager "api"
           (middlewareParams [] ⟨[], "GET", false, JValue.null⟩) "short" 0).2) ∧
    (cache_middleware_call initManager "api" "short" []
        ⟨[], "GET", false, JValue.null⟩
        (Except.ok (HandlerResult.tup (JValue.num 3) 404)) 0).2.memory_cache = [] ∧
    (cache_middleware_call initManager "api" "short" []
        ⟨[], "GET", false, JValue.null⟩
        (Except.ok (HandlerResult.tup (JValue.num 3) 404)) 0).2.disk_cache = [] :=
  ⟨rfl, rfl, rfl⟩

/-- C8 amended: neither wrapper ever caches a raised exception — on a
miss path (cached lookup yields Python `None`, or a non-truthy
middleware response), a failing wrapped function leaves the wrapper
returning exactly that error with the post-lookup manager state, `set`
never reached, and the lookup itself writes nothing on a miss (the
disk store is untouched and the memory store gains no key).  On a miss
with a successful result, the `cached` decorator always stores the
result via `set` and returns it; `cache_middleware` stores and returns
a `(response, 200)` tuple or a bare response, but a successful tuple
with any other status code is returned **without being stored**. -/
theorem C8_wrapper_store_policy (mgr : CacheManager) (ns tier : String)
    (comps : List (String × JValue)) (now : Nat) (e : String) (r : JValue)
    (mgr2 : CacheManager) (kwargs : List (String × JValue)) (req : Request)
    (e2 : String) (resp : JValue) (status : Nat) (mgr3 mgr4 : CacheManager) :
    (((CacheManager.get mgr ns comps tier now).1.getD JValue.null) = JValue.null →
      cached_call mgr ns tier comps (Except.error e) now
        = (Except.error e, (CacheManager.get mgr ns comps tier now).2)) ∧
    (((CacheManager.get mgr ns comps tier now).1.getD JValue.null) = JValue.null →
      CacheManager.set (CacheManager.get mgr ns comps tier now).2 ns comps r tier now
          = Except.ok mgr2 →
      cached_call mgr ns tier comps (Except.ok r) now = (Except.ok r, mgr2)) ∧
    (truthy ((CacheManager.get mgr ns (middlewareParams kwargs req) tier now).1.getD
        JValue.null) = false →
      cache_middleware_call mgr ns tier kwargs req (Except.error e2) now
        = (Except.error e2,
           (CacheManager.get mgr ns (middlewareParams kwargs req) tier now).2)) ∧
    ((CacheManager.get mgr ns comps tier now).1 = none →
      (CacheManager.get mgr ns comps tier now).2.disk_cache = mgr.disk_cache ∧
      ∀ k, ((CacheManager.get mgr ns comps tier now).2.memory_cache.lookup k).isSome = true →
        (mgr.memory_cache.lookup k).isSome = true) ∧
    (truthy ((CacheManager.get mgr ns (middlewareParams kwargs req) tier now).1.getD
        JValue.null) = false →
      CacheManager.set (CacheManager.get mgr ns (middlewareParams kwargs req) tier now).2
          ns (middlewareParams kwargs req) resp tier now = Except.ok mgr3 →
      cache_middleware_call mgr ns tier kwargs req
          (Except.ok (HandlerResult.tup resp 200)) now
        = (Except.ok (HandlerResult.tup resp 200), mgr3)) ∧
    (truthy ((CacheManager.get mgr ns (middlewareParams kwargs req) tier now).1.getD
        JValue.null) = false →
      CacheManager.set (CacheManager.get mgr ns (middlewareParams kwargs req) tier now).2
          ns (middlewareParams kwargs req) resp tier now = Except.ok mgr4 →
      cache_middleware_call mgr ns tier kwargs req
          (Except.ok (HandlerResult.single resp)) now
        = (Except.ok (HandlerResult.single resp), mgr4)) ∧
    (truthy ((CacheManager.get mgr ns (middlewareParams kwargs req) tier now).1.getD
        JValue.null) = false →
      status ≠ 200 →
      cache_middleware_call mgr ns tier kwargs req
          (Except.ok (HandlerResult.tup resp status)) now
        = (Except.ok (HandlerResult.tup resp status),
           (CacheManager.get mgr ns (middlewareParams kwargs req) tier now).2)) :=
  ⟨fun h => cached_call_miss_error mgr ns tier comps now e h,
   fun h hs => cached_call_miss_ok mgr ns tier comps now r mgr2 h hs,
   fun h => middleware_not_truthy_error mgr ns tier kwargs req now e2 h,
   fun h => get_miss_no_write mgr ns comps tier now h,
   fun h hs => middleware_not_truthy_ok200 mgr ns tier kwargs req now resp mgr3 h hs,
   fun h hs => middleware_not_truthy_ok_single mgr ns tier kwargs req now resp mgr4 h hs,
   fun h hst => middleware_not_truthy_ok_non200 mgr ns tier kwargs req now resp status h hst⟩

/-- Witness for C8's amended statement on a fresh manager: a failing
function's error propagates from both wrappers with nothing stored, a
succeeding function's result is stored then returned by the decorator,
the middleware stores a 200 tuple and a bare response, and a 404 tuple
is returned with the post-lookup state unchanged. -/
theorem C8_wrapper_policy_witness :
    (cached_call initManager "api" "short" [("x", JValue.num 2)] (Except.error "boom") 7
        = (Except.error "boom",
           (CacheManager.get initManager "api" [("x", JValue.num 2)] "short" 7).2)) ∧
    (cached_call initManager "api" "short" [("x", JValue.num 2)] (Except.ok (JValue.num 5)) 7
        = (Except.ok (JValue.num 5),
           okOr (CacheManager.set
             (CacheManager.get initManager "api" [("x", JValue.num 2)] "short" 7).2
             "api" [("x", JValue.num 2)] (JValue.num 5) "short" 7) initManager)) ∧
    (cache_middleware_call initManager "api" "short" []
        ⟨[], "GET", false, JValue.null⟩ (Except.error "down") 7
        = (Except.error "down",
           (CacheManager.get initManager "api"
             (middlewareParams [] ⟨[], "GET", false, JValue.null⟩) "short" 7).2)) ∧
    (CacheManager.get initManager "api" [("x", JValue.num 2)] "short" 7).2.disk_cache = [] ∧
    (cache_middleware_call initManager "api" "short" []
        ⟨[], "GET", false, JValue.null⟩
        (Except.ok (HandlerResult.tup (JValue.num 3) 200)) 7
        = (Except.ok (HandlerResult.tup (JValue.num 3) 200),
           okOr (CacheManager.set
             (CacheManager.get initManager "api"
               (middlewareParams [] ⟨[], "GET", false, JValue.null⟩) "short" 7).2
             "api" (middlewareParams [] ⟨[], "GET", false, JValue.null⟩)
             (JValue.num 3) "short" 7) initManager)) ∧
    (cache_middleware_call initManager "api" "short" []
        ⟨[], "GET", false, JValue.null⟩
        (Except.ok (HandlerResult.single (JValue.num 3))) 7
        = (Except.ok (HandlerResult.single (JValue.num 3)),
           okOr (CacheManager.set
             (CacheManager.get initManager "api"
               (middlewareParams [] ⟨[], "GET", false, JValue.null⟩) "short" 7).2
             "api" (middlewareParams [] ⟨[], "GET", false, JValue.null⟩)
             (JValue.num 3) "short" 7) initManager)) ∧
    (cache_middleware_call initManager "api" "short" []
        ⟨[], "GET", false, JValue.null⟩
        (Except.ok (HandlerResult.tup (JValue.num 3) 404)) 7
        = (Except.ok (HandlerResult.tup (JValue.num 3) 404),
           (CacheManager.get initManager "api"
             (middlewareParams [] ⟨[], "GET", false, JValue.null⟩) "short" 7).2)) := by
  have H := C8_wrapper_store_policy initManager "api" "short" [("x", JValue.num 2)] 7
    "boom" (JValue.num 5)
    (okOr (CacheManager.set
      (CacheManager.get initManager "api" [("x", JValue.num 2)] "short" 7).2
      "api" [("x", JValue.num 2)] (JValue.num 5) "short" 7) initManager)
    [] ⟨[], "GET", false, JValue.null⟩ "down" (JValue.num 3) 404
    (okOr (CacheManager.set
      (CacheManager.get initManager "api"
        (middlewareParams [] ⟨[], "GET", false, JValue.null⟩) "short" 7).2
      "api" (middlewareParams [] ⟨[], "GET", false, JValue.null⟩)
      (JValue.num 3) "short" 7) initManager)
    (okOr (CacheManager.set
      (CacheManager.get initManager "api"
        (middlewareParams [] ⟨[], "GET", false, JValue.null⟩) "short" 7).2
      "api" (middlewareParams [] ⟨[], "GET", false, JValue.null⟩)
      (JValue.num 3) "short" 7) initManager)
  exact ⟨H.1 rfl, H.2.1 rfl rfl, H.2.2.1 rfl, (H.2.2.2.1 rfl).1,
    H.2.2.2.2.1 rfl rfl, H.2.2.2.2.2.1 rfl rfl,
    H.2.2.2.2.2.2 rfl (by decide)⟩

theorem foldl_cond_dictInsert (l : List (String × JValue)) (acc : List (String × JValue)) :
    l.foldl (fun acc kv =>
        if kv.1 ≠ "user_id" ∧ kv.1 ≠ "username" then dictInsert acc kv.1 kv.2 else acc) acc
      = (l.filter (fun kv => decide (kv.1 ≠ "user_id" ∧ kv.1 ≠ "username"))).foldl
          (fun acc kv => dictInsert acc kv.1 kv.2) acc := by
  induction l generalizing acc with
  | nil => rfl
  | cons kv rest ih =>
    by_cases h : kv.1 ≠ "user_id" ∧ kv.1 ≠ "username"
    · simp only [List.foldl_cons, List.filter_cons]
      rw [if_pos h, if_pos (decide_eq_true h), List.foldl_cons]
      exact ih (dictInsert acc kv.1 kv.2)
    · simp only [List.foldl_cons, List.filter_cons]
      rw [if_neg h, if_neg (fun hc => h (of_decide_eq_true hc))]
      exact ih acc

/-- C9: two middleware invocations that differ only in the
authentication identity parameters `user_id` / `username` (same
cache-relevant keyword arguments, same query parameters, method and
body) derive the identical key-parameter mapping, and therefore the
identical cache key: the middleware filters those two names out before
building the key. -/
theorem C9_auth_identity_excluded (ns : String)
    (kwargs1 kwargs2 : List (String × JValue)) (req : Request)
    (hsame : kwargs1.filter (fun kv => decide (kv.1 ≠ "user_id" ∧ kv.1 ≠ "username"))
        = kwargs2.filter (fun kv => decide (kv.1 ≠ "user_id" ∧ kv.1 ≠ "username"))) :
    middlewareParams kwargs1 req = middlewareParams kwargs2 req ∧
      generate_cache_key ns (middlewareParams kwargs1 req)
        = generate_cache_key ns (middlewareParams kwargs2 req) := by
  have hp : middlewareParams kwargs1 req = middlewareParams kwargs2 req := by
    simp only [middlewareParams]
    rw [foldl_cond_dictInsert, foldl_cond_dictInsert, hsame]
  exact ⟨hp, by rw [hp]⟩

/-- Witness for C9: requests by users "alice" and "bob" with the same
project route parameter and query string share one cache key. -/
theorem C9_auth_identity_witness :
    generate_cache_key "projects"
        (middlewareParams [("project_id", JValue.str "p1"), ("user_id", JValue.str "alice")]
          ⟨[("detail", "full")], "GET", false, JValue.null⟩)
      = generate_cache_key "projects"
        (middlewareParams
          [("project_id", JValue.str "p1"), ("user_id", JValue.str "bob"),
           ("username", JValue.str "bob")]
          ⟨[("detail", "full")], "GET", false, JValue.null⟩) :=
  (C9_auth_identity_excluded "projects"
    [("project_id", JValue.str "p1"), ("user_id", JValue.str "alice")]
    [("project_id", JValue.str "p1"), ("user_id", JValue.str "bob"),
     ("username", JValue.str "bob")]
    ⟨[("detail", "full")], "GET", false, JValue.null⟩ rfl).2

/-- C10: a stored Python `None` (and, at the middleware boundary, any
falsy cached response) is treated as a cache miss: even though the
entry is live in storage, the wrapped function is invoked again and its
result stored again via `set`, so the stored `None`/falsy value is
never served. -/
theorem C10_falsy_cached_treated_as_miss (mgr : CacheManager) (ns tier : String)
    (comps : List (String × JValue)) (now : Nat) (r : JValue) (mgr2 : CacheManager)
    (kwargs : List (String × JValue)) (req : Request) (resp : JValue) (v : JValue)
    (mgr3 : CacheManager) :
    ((CacheManager.get mgr ns comps tier now).1 = some JValue.null →
      CacheManager.set (CacheManager.get mgr ns comps tier now).2 ns comps r tier now
          = Except.ok mgr2 →
      cached_call mgr ns tier comps (Except.ok r) now = (Except.ok r, mgr2)) ∧
    ((CacheManager.get mgr ns (middlewareParams kwargs req) tier now).1 = some v →
      truthy v = false →
      CacheManager.set (CacheManager.get mgr ns (middlewareParams kwargs req) tier now).2
          ns (middlewareParams kwargs req) resp tier now = Except.ok mgr3 →
      cache_middleware_call mgr ns tier kwargs req
          (Except.ok (HandlerResult.tup resp 200)) now
        = (Except.ok (HandlerResult.tup resp 200), mgr3)) := by
  constructor
  · intro h hs
    exact cached_call_miss_ok mgr ns tier comps now r mgr2 (by rw [h]; rfl) hs
  · intro h hv hs
    exact middleware_not_truthy_ok200 mgr ns tier kwargs req now resp mgr3
      (by rw [h]; simpa using hv) hs

/-- Manager holding a live stored Python `None` under the `cached`
decorator's key, and a live falsy (empty-object) response under the
middleware's key; both were stored at t = 0 on the `short` tier. -/
def falsyMgr : CacheManager :=
  okOr (CacheManager.set
    (okOr (CacheManager.set initManager "memo" [("q", JValue.num 1)] JValue.null "short" 0)
      initManager)
    "api" (middlewareParams [] ⟨[], "GET", false, JValue.null⟩)
    (JValue.obj []) "short" 0) initManager

/-- Witness for C10: on `falsyMgr` the stored `None` and the stored
empty-object response are both recomputed and re-stored. -/
theorem C10_falsy_cached_witness :
    (cached_call falsyMgr "memo" "short" [("q", JValue.num 1)] (Except.ok (JValue.num 9)) 0
        = (Except.ok (JValue.num 9),
           okOr (CacheManager.set
             (CacheManager.get falsyMgr "memo" [("q", JValue.num 1)] "short" 0).2
             "memo" [("q", JValue.num 1)] (JValue.num 9) "short" 0) initManager)) ∧
    (cache_middleware_call falsyMgr "api" "short" [] ⟨[], "GET", false, JValue.null⟩
        (Except.ok (HandlerResult.tup (JValue.num 3) 200)) 0
        = (Except.ok (HandlerResult.tup (JValue.num 3) 200),
           okOr (CacheManager.set
             (CacheManager.get falsyMgr "api"
               (middlewareParams [] ⟨[], "GET", false, JValue.null⟩) "short" 0).2
             "api" (middlewareParams [] ⟨[], "GET", false, JValue.null⟩)
             (JValue.num 3) "short" 0) initManager)) :=
  ⟨(C10_falsy_cached_treated_as_miss falsyMgr "memo" "short" [("q", JValue.num 1)] 0
      (JValue.num 9)
      (okOr (CacheManager.set
        (CacheManager.get falsyMgr "memo" [("q", JValue.num 1)] "short" 0).2
        "memo" [("q", JValue.num 1)] (JValue.num 9) "short" 0) initManager)
      [] ⟨[], "GET", false, JValue.null⟩ (JValue.num 3) (JValue.obj [])
      initManager).1 rfl rfl,
   (C10_falsy_cached_treated_as_miss falsyMgr "api" "short" [("q", JValue.num 1)] 0
      (JValue.num 9) initManager
      [] ⟨[], "GET", false, JValue.null⟩ (JValue.num 3) (JValue.obj [])
      (okOr (CacheManager.set
        (CacheManager.get falsyMgr "api"
          (middlewareParams [] ⟨[], "GET", false, JValue.null⟩) "short" 0).2
        "api" (middlewareParams [] ⟨[], "GET", false, JValue.null⟩)
        (JValue.num 3) "short" 0) initManager)).2 rfl rfl rfl⟩

end EnergyCache
